import Mathlib

/-!
# PressWire press-release loader (`static/assets/js/load-prs.js`)

A shallow embedding of the client-side loader: the JavaScript values the code
handles (parsed JSON and `undefined`), the string helpers it calls, the two card
templates, the fetch / render / fallback pipeline and the two DOM filters.

Modelling conventions.
* A JavaScript string is a Lean `String` (a sequence of Unicode scalar values).
  `String.prototype.toLowerCase` is a table of the JavaScript runtime, not of this
  repository: the search and the filters take it as the parameter `toLowerCase`,
  and what is used of it is stated where it is used (`LowerOnAscii`: on ASCII
  text it is the ASCII lower-casing). `toUpperCase`, used to capitalize the
  first character of a word of a derived title, is the ASCII part of the
  JavaScript mapping; first characters outside `a`-`z` are left as they are.
* A number is an integer (`Int`), rendered in decimal, as JavaScript renders
  integer-valued numbers of magnitude below `10^21`.
* A thrown exception is `Except.error`; the code never inspects the exception it
  catches, so the error kinds only document where a failure comes from.
* The page is the list of its elements that carry an id, each with the markup
  last assigned to its `innerHTML`. One call of `loadPressReleases` is followed
  in isolation, from the call to the settling of its promise.
-/

namespace PressWire

/-! ## JavaScript values -/

/-- A JavaScript value as this code can meet it: `undefined`, or a value produced by
`JSON.parse` (objects are given by their own properties, each key once). -/
inductive JSVal where
  | undefined : JSVal
  | null : JSVal
  | bool (b : Bool) : JSVal
  | num (n : Int) : JSVal
  | str (s : String) : JSVal
  | arr (items : List JSVal) : JSVal
  | obj (props : List (String × JSVal)) : JSVal

/-- The exceptions that can be thrown while `loadPressReleases` runs. -/
inductive JSError where
  | typeError : JSError
  | syntaxError : JSError
  | networkError : JSError
  | error (message : String) : JSError
  deriving DecidableEq, Repr

instance instDecidableEqExcept {ε α : Type} [DecidableEq ε] [DecidableEq α] :
    DecidableEq (Except ε α) := fun a b =>
  match a, b with
  | .ok x, .ok y =>
    if h : x = y then isTrue (by rw [h]) else isFalse (by intro h2; cases h2; exact h rfl)
  | .error x, .error y =>
    if h : x = y then isTrue (by rw [h]) else isFalse (by intro h2; cases h2; exact h rfl)
  | .ok _, .error _ => isFalse (by intro h; cases h)
  | .error _, .ok _ => isFalse (by intro h; cases h)

/-- ToBoolean: `undefined`, `null`, `false`, `0` and `""` are falsy, every other value
(every array and object included) is truthy. -/
def truthy : JSVal → Bool
  | .undefined => false
  | .null => false
  | .bool b => b
  | .num n => n != 0
  | .str s => s != ""
  | .arr _ => true
  | .obj _ => true

/-- Own property of an object given by its property list. -/
def lookup (key : String) : List (String × JSVal) → Option JSVal
  | [] => none
  | (k, v) :: rest => if k == key then some v else lookup key rest

/-- Number of UTF-16 code units of a string (the `length` of a JavaScript string). -/
def utf16Length (s : String) : Nat :=
  (s.data.map (fun c => if c.val.toNat < 65536 then 1 else 2)).sum

/-- Property read `v.key`, for the keys this code reads (`prs`, `length`, `map` and the
record fields; none of them is defined on `Object.prototype`, `Array.prototype` apart
from `length` and `map`, or the primitive wrappers apart from the string `length`).
Reading a property of `undefined` or `null` throws a TypeError. The method `map` of an
array is not a JSON value; the call `prs.map(...)` is modelled by `mapArray`. -/
def getProp (v : JSVal) (key : String) : Except JSError JSVal :=
  match v with
  | .undefined => .error .typeError
  | .null => .error .typeError
  | .bool _ => .ok .undefined
  | .num _ => .ok .undefined
  | .str s => if key == "length" then .ok (.num (utf16Length s)) else .ok .undefined
  | .arr items => if key == "length" then .ok (.num items.length) else .ok .undefined
  | .obj props => .ok ((lookup key props).getD .undefined)

mutual
/-- ToString, as applied by a template literal to the value of a `${...}` hole. An
object parsed from JSON renders as `[object Object]`, unless it has an own property
`toString` (a JSON value, hence not callable), in which case the conversion throws a
TypeError. An array renders as its elements joined by commas. A number is an integer
and renders in decimal, as JavaScript renders integers of magnitude below `10^21`. -/
def toStr : JSVal → Except JSError String
  | .undefined => .ok "undefined"
  | .null => .ok "null"
  | .bool b => .ok (if b then "true" else "false")
  | .num n => .ok (toString n)
  | .str s => .ok s
  | .arr items => joinItems items
  | .obj props =>
    if props.any (fun p => p.1 == "toString") then .error .typeError
    else .ok "[object Object]"
/-- The body of `Array.prototype.join` with the separator `,` . -/
def joinItems : List JSVal → Except JSError String
  | [] => .ok ""
  | [x] => itemStr x
  | x :: y :: rest =>
    match itemStr x with
    | .error e => .error e
    | .ok a =>
      match joinItems (y :: rest) with
      | .error e => .error e
      | .ok b => .ok (a ++ "," ++ b)
/-- The text of one array element in `join`: empty for `undefined` and `null`. -/
def itemStr : JSVal → Except JSError String
  | .undefined => .ok ""
  | .null => .ok ""
  | .bool b => .ok (if b then "true" else "false")
  | .num n => .ok (toString n)
  | .str s => .ok s
  | .arr items => joinItems items
  | .obj props =>
    if props.any (fun p => p.1 == "toString") then .error .typeError
    else .ok "[object Object]"
end

/-! ## String helpers -/

/-- Model of `String.prototype.toUpperCase`, ASCII part: `a`-`z` go to `A`-`Z`, every
other character stays (the code applies it to the first character of a word only). -/
def toUpperCase (s : String) : String := String.mk (s.data.map Char.toUpper)

/-- Every character of the string is an ASCII character (below 128). -/
def isAscii (s : String) : Bool := s.data.all (fun c => c.val.toNat < 128)

/-- The ASCII lower-casing: `A`-`Z` go to `a`-`z`, every other character stays. -/
def asciiLower (s : String) : String := String.mk (s.data.map Char.toLower)

/-- What is known of `String.prototype.toLowerCase` without its Unicode table: on ASCII
text it is the ASCII lower-casing. -/
def LowerOnAscii (toLowerCase : String → String) : Prop :=
  ∀ s, isAscii s = true → toLowerCase s = asciiLower s

/-- Substring test on character lists: `needle` occurs in the list at some position. -/
def listIncludes (needle : List Char) : List Char → Bool
  | [] => needle.isEmpty
  | c :: cs => needle.isPrefixOf (c :: cs) || listIncludes needle cs

/-- Model of `text.includes(needle)` of JavaScript. -/
def includes (text needle : String) : Bool := listIncludes needle.data text.data

/-- The call `.replace(/\d{13}\.html$/, '')`: the pattern is anchored at the end of the input and
has the fixed length 18, so its only possible match is the last 18 characters. -/
def stripTimestampHtml (s : List Char) : List Char :=
  if 18 ≤ s.length ∧ ((s.drop (s.length - 18)).take 13).all Char.isDigit
      ∧ s.drop (s.length - 5) = ".html".data then s.take (s.length - 18) else s

/-- The call `.replace(/\.html$/, '')`. -/
def stripHtml (s : List Char) : List Char :=
  if ".html".data.isSuffixOf s then s.take (s.length - 5) else s

/-- The call `.replace(/[-_]/g, ' ')`. -/
def separatorsToSpaces (s : List Char) : List Char :=
  s.map (fun c => if c = '-' ∨ c = '_' then ' ' else c)

/-- The expression `word.charAt(0).toUpperCase() + word.slice(1)`. -/
def capitalize : List Char → List Char
  | [] => []
  | c :: cs => (toUpperCase (String.mk [c])).data ++ cs

/-- The string part of `extractTitleFromFilename`, for a non-empty string `filename`:
the three `replace` calls, then `split(' ')`, `map` over the words and `join(' ')`. -/
def titleFromString (filename : String) : String :=
  let title := separatorsToSpaces (stripHtml (stripTimestampHtml filename.data))
  String.mk (" ".data.intercalate ((title.splitOn ' ').map capitalize))

/-- The function `extractTitleFromFilename(filename)`. A truthy value that is not a string has no
callable `replace`, so the first `replace` call throws a TypeError. -/
def extractTitleFromFilename (filename : JSVal) : Except JSError String :=
  if !truthy filename then .ok "Press Release"
  else
    match filename with
    | .str s => .ok (titleFromString s)
    | _ => .error .typeError

/-! ## The page -/

/-- An element of the page that carries an id, with the markup of its contents. -/
structure Element where
  id : String
  innerHTML : String
  deriving DecidableEq, Repr

/-- The page: its elements with an id, in document order. -/
abbrev Document := List Element

/-- The call `document.getElementById(id)`: the first element with that id, if any. -/
def getElementById (doc : Document) (id : String) : Option Element :=
  doc.find? (fun e => e.id == id)

/-- The assignment `container.innerHTML = html`, where `container` is `document.getElementById(id)`. -/
def setInnerHTML : Document → String → String → Document
  | [], _, _ => []
  | e :: rest, id, html =>
    if e.id == id then { e with innerHTML := html } :: rest
    else e :: setInnerHTML rest id html

/-- The contents of the element with the given id, when the page has one. -/
def contents (doc : Document) (id : String) : Option String :=
  (getElementById doc id).map (fun e => e.innerHTML)

/-- The card layout is compact exactly when the page has the homepage container. -/
def isHomepage (doc : Document) : Bool := (getElementById doc "homepage-prs").isSome

/-! ## Card templates -/

/-- The hole `${pr.timeAgo || pr.date}`. -/
def stampText (pr : JSVal) : Except JSError String :=
  match getProp pr "timeAgo" with
  | .error e => .error e
  | .ok timeAgo =>
    if truthy timeAgo then toStr timeAgo
    else
      match getProp pr "date" with
      | .error e => .error e
      | .ok date => toStr date

/-- The hole `${pr.title || extractTitleFromFilename(pr.filename)}`. -/
def titleText (pr : JSVal) : Except JSError String :=
  match getProp pr "title" with
  | .error e => .error e
  | .ok title =>
    if truthy title then toStr title
    else
      match getProp pr "filename" with
      | .error e => .error e
      | .ok filename => extractTitleFromFilename filename

/-- The hole `${pr.summary || placeholder}`, the placeholder being a string literal. -/
def summaryText (pr : JSVal) (placeholder : String) : Except JSError String :=
  match getProp pr "summary" with
  | .error e => .error e
  | .ok summary => if truthy summary then toStr summary else .ok placeholder

/-- The hole `${pr.domain || pr.company || 'company domain'}` of the compact card. -/
def verifiedViaText (pr : JSVal) : Except JSError String :=
  match getProp pr "domain" with
  | .error e => .error e
  | .ok domain =>
    if truthy domain then toStr domain
    else
      match getProp pr "company" with
      | .error e => .error e
      | .ok company => if truthy company then toStr company else .ok "company domain"

/-- The hole with the registration number of the compact card:
`pr.croNumber ? <span> with ${pr.croNumber} : ''`. -/
def croText (pr : JSVal) : Except JSError String :=
  match getProp pr "croNumber" with
  | .error e => .error e
  | .ok croNumber =>
    if truthy croNumber then
      match toStr croNumber with
      | .error e => .error e
      | .ok text => .ok ("<span class=\"ml-2\">• CRO: " ++ text ++ "</span>")
    else .ok ""

/-- The hole `${pr.url}`. -/
def urlText (pr : JSVal) : Except JSError String :=
  match getProp pr "url" with
  | .error e => .error e
  | .ok url => toStr url

/-- The hole with the industry tag of the expanded card:
`pr.industry ? <span> with ${pr.industry} : ''`. -/
def industryText (pr : JSVal) : Except JSError String :=
  match getProp pr "industry" with
  | .error e => .error e
  | .ok industry =>
    if truthy industry then
      match toStr industry with
      | .error e => .error e
      | .ok text =>
        .ok ("<span class=\"text-xs font-medium text-gray-500 uppercase\">" ++ text ++ "</span>")
    else .ok ""

/-- The hole `${pr.company || 'Verified Company'}` of the expanded card. -/
def companyText (pr : JSVal) : Except JSError String :=
  match getProp pr "company" with
  | .error e => .error e
  | .ok company => if truthy company then toStr company else .ok "Verified Company"

/-- The hole with the domain of the expanded card:
`pr.domain ? <span> with ${pr.domain} : ''`. -/
def domainText (pr : JSVal) : Except JSError String :=
  match getProp pr "domain" with
  | .error e => .error e
  | .ok domain =>
    if truthy domain then
      match toStr domain with
      | .error e => .error e
      | .ok text => .ok ("<span class=\"ml-3\">• " ++ text ++ "</span>")
    else .ok ""

/-- The template of the homepage card, its holes filled with the given texts. -/
def compactCard (stamp title summary via cro url : String) : String :=
  "
            <div class=\"bg-white rounded-lg border p-6 hover:shadow-lg transition-shadow\">
                <div class=\"mb-4\">
                    <span class=\"inline-block px-2 py-1 bg-green-100 text-green-700 text-xs font-medium rounded\">
                        VERIFIED
                    </span>
                    <span class=\"text-sm text-gray-500 ml-2\">" ++ stamp ++ "</span>
                </div>
                <h3 class=\"font-semibold mb-2 line-clamp-2\">
                    " ++ title ++ "
                </h3>
                <p class=\"text-gray-600 text-sm mb-4 line-clamp-3\">
                    " ++ summary ++ "
                </p>
                <div class=\"flex items-center text-xs text-gray-500 mb-4\">
                    <span>✓ Verified via " ++ via ++ "</span>
                    " ++ cro ++ "
                </div>
                <a href=\"" ++ url ++ "\" class=\"text-sm font-medium text-black hover:underline\">
                    Read more →
                </a>
            </div>
        "

/-- The template of the news-list card, its holes filled with the given texts. -/
def expandedCard (industry stamp url title summary company domain : String) : String :=
  "
        <article class=\"bg-white rounded-lg border p-6 hover:shadow-lg transition-shadow\">
            <div class=\"flex items-start justify-between mb-4\">
                <div class=\"flex items-center space-x-3\">
                    <span class=\"inline-block px-2 py-1 bg-green-100 text-green-700 text-xs font-medium rounded\">
                        VERIFIED
                    </span>
                    " ++ industry ++ "
                    <span class=\"text-sm text-gray-500\">" ++ stamp ++ "</span>
                </div>
            </div>

            <h2 class=\"text-xl font-bold mb-3\">
                <a href=\"" ++ url ++ "\" class=\"hover:text-blue-600\">
                    " ++ title ++ "
                </a>
            </h2>

            <p class=\"text-gray-600 mb-4 line-clamp-2\">
                " ++ summary ++ "
            </p>

            <div class=\"flex items-center justify-between\">
                <div class=\"flex items-center text-sm text-gray-500\">
                    <span>✓ " ++ company ++ "</span>
                    " ++ domain ++ "
                </div>
                <a href=\"" ++ url ++ "\" class=\"text-sm font-medium text-black hover:underline\">
                    Read more →
                </a>
            </div>
        </article>
    "

/-- The function `createPRCard(pr)`, run on the page `doc`. The holes of a template literal are
evaluated and converted to strings from left to right; the first failure aborts. -/
def createPRCard (doc : Document) (pr : JSVal) : Except JSError String :=
  if (getElementById doc "homepage-prs").isSome then
    match stampText pr with
    | .error e => .error e
    | .ok stamp =>
    match titleText pr with
    | .error e => .error e
    | .ok title =>
    match summaryText pr "Click to read the full press release announcement." with
    | .error e => .error e
    | .ok summary =>
    match verifiedViaText pr with
    | .error e => .error e
    | .ok via =>
    match croText pr with
    | .error e => .error e
    | .ok cro =>
    match urlText pr with
    | .error e => .error e
    | .ok url => .ok (compactCard stamp title summary via cro url)
  else
    match industryText pr with
    | .error e => .error e
    | .ok industry =>
    match stampText pr with
    | .error e => .error e
    | .ok stamp =>
    match urlText pr with
    | .error e => .error e
    | .ok url =>
    match titleText pr with
    | .error e => .error e
    | .ok title =>
    match summaryText pr "Read the full press release for more details." with
    | .error e => .error e
    | .ok summary =>
    match companyText pr with
    | .error e => .error e
    | .ok company =>
    match domainText pr with
    | .error e => .error e
    | .ok domain => .ok (expandedCard industry stamp url title summary company domain)

/-- The call `list.map(pr => createPRCard(pr))` on the elements of an array, left to right. -/
def mapCards (doc : Document) : List JSVal → Except JSError (List String)
  | [] => .ok []
  | pr :: rest =>
    match createPRCard doc pr with
    | .error e => .error e
    | .ok card =>
      match mapCards doc rest with
      | .error e => .error e
      | .ok cards => .ok (card :: cards)

/-- The call `.join('')` on an array of strings. -/
def joinCards (cards : List String) : String := cards.foldr (fun c acc => c ++ acc) ""

/-- The three built-in sample records of `createSamplePRs`. -/
def samples : List JSVal :=
  [ .obj [("title", .str "TechCorp Ireland Announces €5M Expansion"),
          ("company", .str "TechCorp Ireland"),
          ("domain", .str "techcorp.ie"),
          ("timeAgo", .str "2 hours ago"),
          ("summary", .str "Leading software company creates 50 new jobs in Dublin tech hub."),
          ("url", .str "/news/sample-techcorp.html"),
          ("industry", .str "technology")],
    .obj [("title", .str "GreenEnergy Solutions Wins EU Grant"),
          ("company", .str "GreenEnergy Solutions"),
          ("domain", .str "greenenergy.ie"),
          ("timeAgo", .str "4 hours ago"),
          ("summary", .str "Cork-based renewable energy firm secures €2M for innovative solar project."),
          ("url", .str "/news/sample-greenenergy.html"),
          ("industry", .str "renewable")],
    .obj [("title", .str "FinTech Startup Raises €10M Series A"),
          ("company", .str "FinTech Startup"),
          ("domain", .str "fintech.ie"),
          ("timeAgo", .str "Yesterday"),
          ("summary", .str "Dublin fintech revolutionizing payments for SMEs across Europe."),
          ("url", .str "/news/sample-fintech.html"),
          ("industry", .str "finance")] ]

/-- The function `createSamplePRs()`: the sample records rendered by `createPRCard` and joined. -/
def createSamplePRs (doc : Document) : Except JSError String :=
  match mapCards doc samples with
  | .error e => .error e
  | .ok cards => .ok (joinCards cards)

/-! ## Fetching -/

/-- What `fetch(url)` followed by `response.json()` delivers: the request rejects, or a
response arrives with a status and a body that parses as JSON (`some`) or does not
(`none`). -/
inductive FetchResult where
  | rejected : FetchResult
  | response (status : Nat) (json : Option JSVal) : FetchResult

/-- The flag `response.ok`: the status is in the range 200-299. -/
def statusOk (status : Nat) : Bool := 200 ≤ status && status ≤ 299

/-- The request URL, a template literal over `limit` (default value 10). -/
def listUrl (limit : Option Int) : String :=
  "/api/list-prs?limit=" ++ toString (limit.getD 10)

/-- The loading placeholder. -/
def loadingMarkup : String :=
  "
        <div class=\"text-center py-8\">
            <div class=\"inline-block animate-spin rounded-full h-8 w-8 border-b-2 border-gray-900\"></div>
            <p class=\"mt-2 text-gray-500\">Loading press releases...</p>
        </div>
    "

/-- The empty-state markup. -/
def emptyMarkup : String :=
  "
                <div class=\"text-center py-8 text-gray-500\">
                    <p>No press releases found.</p>
                </div>
            "

/-- The test `prs.length === 0`: strict equality with the number 0. -/
def isZero : JSVal → Bool
  | .num n => n == 0
  | _ => false

/-- The call `prs.map(pr => createPRCard(pr))`: only an array has a callable `map`; on any other
value the call throws a TypeError. -/
def mapArray (doc : Document) : JSVal → Except JSError (List String)
  | .arr items => mapCards doc items
  | _ => .error .typeError

/-- The `try` block of `loadPressReleases`, run on the page that shows the loading
placeholder: the new page when the block completes, the exception when it throws. -/
def tryLoad (doc : Document) (fetch : String → FetchResult) (containerId : String)
    (limit : Option Int) : Except JSError Document :=
  match fetch (listUrl limit) with
  | .rejected => .error .networkError
  | .response status json =>
    if !statusOk status then .error (.error "Failed to fetch press releases")
    else
      match json with
      | none => .error .syntaxError
      | some data =>
        match getProp data "prs" with
        | .error e => .error e
        | .ok field =>
          let prs := if truthy field then field else .arr []
          match getProp prs "length" with
          | .error e => .error e
          | .ok length =>
            if isZero length then .ok (setInnerHTML doc containerId emptyMarkup)
            else
              match mapArray doc prs with
              | .error e => .error e
              | .ok cards => .ok (setInnerHTML doc containerId (joinCards cards))

/-- The function `loadPressReleases(containerId, limit)` on the page `doc`, the network being given
by `fetch`: the page when the returned promise fulfils, the exception when it rejects. -/
def loadPressReleases (doc : Document) (fetch : String → FetchResult) (containerId : String)
    (limit : Option Int) : Except JSError Document :=
  match getElementById doc containerId with
  | none => .ok doc
  | some _ =>
    let loading := setInnerHTML doc containerId loadingMarkup
    match tryLoad loading fetch containerId limit with
    | .ok done => .ok done
    | .error _ =>
      match createSamplePRs loading with
      | .error e => .error e
      | .ok html => .ok (setInnerHTML loading containerId html)

/-! ## Search and filters -/

/-- A rendered news item (`#news-grid article`): its text and its `style.display`. -/
structure Article where
  textContent : String
  display : String
  deriving DecidableEq, Repr

/-- An item is shown unless its `style.display` is `none`. -/
def Article.shown (a : Article) : Bool := a.display != "none"

/-- The `input` listener bound by `setupSearch`, run with the value of the search field
on the items of the news list; `toLowerCase` is `String.prototype.toLowerCase`. -/
def searchListener (toLowerCase : String → String) (value : String)
    (articles : List Article) : List Article :=
  let query := toLowerCase value
  articles.map (fun article =>
    let text := toLowerCase article.textContent
    { article with display := if includes text query then "block" else "none" })

/-- The expression `document.getElementById(id)?.value || ''`, the selector being absent
(`none`) or present with a value. -/
def selectorValue (selector : Option String) : String :=
  match selector with
  | none => ""
  | some value => if value != "" then value else ""

/-- The function `filterPRs()`, run with the two selectors on the items of the news list;
`toLowerCase` is `String.prototype.toLowerCase`. -/
def filterPRs (toLowerCase : String → String) (industryFilter typeFilter : Option String)
    (articles : List Article) : List Article :=
  let industry := selectorValue industryFilter
  let type := selectorValue typeFilter
  articles.map (fun article =>
    let show1 :=
      if industry != "" && !includes (toLowerCase article.textContent) (toLowerCase industry)
      then false else true
    let show2 :=
      if type != "" && !includes (toLowerCase article.textContent) (toLowerCase type)
      then false else show1
    { article with display := if show2 then "block" else "none" })

/-! ## Records of the data model -/

/-- The fields of a press-release record. -/
def recordFields : List String :=
  ["title", "summary", "date", "timeAgo", "url", "company", "domain", "croNumber",
    "industry", "filename"]

/-- A field is absent or holds a string. -/
def isStringOrAbsent : Option JSVal → Bool
  | none => true
  | some (.str _) => true
  | some _ => false

/-- A press-release record: an object each of whose fields is absent or a string. -/
def isRecord : JSVal → Bool
  | .obj props => recordFields.all (fun key => isStringOrAbsent (lookup key props))
  | _ => false

/-- A page with only the homepage container (the compact layout); the empty page `[]`
stands for the expanded layout. -/
def homepageOnly : Document := [{ id := "homepage-prs", innerHTML := "" }]

/-- A page with only the news-list container. -/
def newsOnly : Document := [{ id := "news-grid", innerHTML := "" }]

/-- The front of a filename: its words, each followed by its separator (a hyphen or an
underscore), so that the last separator stands in front of the timestamp. -/
def slug (pieces : List (List Char × Char)) : List Char :=
  (pieces.map (fun p => p.1 ++ [p.2])).flatten

/-! ## The page: basic facts -/

theorem getElementById_setInnerHTML (doc : Document) (id html : String) :
    getElementById (setInnerHTML doc id html) id =
      (getElementById doc id).map (fun e => { e with innerHTML := html }) := by
  induction doc with
  | nil => rfl
  | cons e rest ih =>
    unfold setInnerHTML
    by_cases h : (e.id == id) = true
    · simp [getElementById, List.find?, h]
    · simp only [h, if_false]
      simp only [getElementById, List.find?, h] at ih ⊢
      exact ih

theorem isSome_getElementById_setInnerHTML (doc : Document) (id html other : String) :
    (getElementById (setInnerHTML doc id html) other).isSome =
      (getElementById doc other).isSome := by
  induction doc with
  | nil => rfl
  | cons e rest ih =>
    unfold setInnerHTML
    by_cases h : (e.id == id) = true
    · simp only [h, if_true]
      by_cases h2 : (e.id == other) = true
      · simp [getElementById, List.find?, h2]
      · simp [getElementById, List.find?, h2]
    · simp only [h, if_false]
      by_cases h2 : (e.id == other) = true
      · simp [getElementById, List.find?, h2]
      · simp only [getElementById, List.find?, h2] at ih ⊢
        exact ih

theorem contents_setInnerHTML (doc : Document) (id html : String) (e : Element)
    (h : getElementById doc id = some e) :
    contents (setInnerHTML doc id html) id = some html := by
  simp [contents, getElementById_setInnerHTML, h]

/-- The card depends on the page only through the presence of the homepage container. -/
theorem createPRCard_congr (doc doc2 : Document) (pr : JSVal)
    (h : (getElementById doc "homepage-prs").isSome = (getElementById doc2 "homepage-prs").isSome) :
    createPRCard doc pr = createPRCard doc2 pr := by
  unfold createPRCard
  rw [h]

theorem mapCards_congr (doc doc2 : Document) (items : List JSVal)
    (h : (getElementById doc "homepage-prs").isSome = (getElementById doc2 "homepage-prs").isSome) :
    mapCards doc items = mapCards doc2 items := by
  induction items with
  | nil => rfl
  | cons pr rest ih => simp only [mapCards, ih, createPRCard_congr doc doc2 pr h]

theorem createSamplePRs_congr (doc doc2 : Document)
    (h : (getElementById doc "homepage-prs").isSome = (getElementById doc2 "homepage-prs").isSome) :
    createSamplePRs doc = createSamplePRs doc2 := by
  simp only [createSamplePRs, mapCards_congr doc doc2 samples h]

theorem layout_cases (doc : Document) :
    (getElementById doc "homepage-prs").isSome = (getElementById homepageOnly "homepage-prs").isSome ∨
    (getElementById doc "homepage-prs").isSome = (getElementById ([] : Document) "homepage-prs").isSome := by
  cases h : (getElementById doc "homepage-prs").isSome
  · right; rfl
  · left; rfl

/-- When `mapCards` succeeds it yields one card per item, in order. -/
theorem mapCards_forall₂ (doc : Document) (items : List JSVal) (cards : List String)
    (h : mapCards doc items = .ok cards) :
    List.Forall₂ (fun pr card => createPRCard doc pr = .ok card) items cards := by
  induction items generalizing cards with
  | nil =>
    simp only [mapCards, Except.ok.injEq] at h
    subst h
    exact List.Forall₂.nil
  | cons pr rest ih =>
    unfold mapCards at h
    cases hc : createPRCard doc pr with
    | error e => rw [hc] at h; cases h
    | ok card =>
      rw [hc] at h
      cases hm : mapCards doc rest with
      | error e => rw [hm] at h; cases h
      | ok tail =>
        rw [hm] at h
        simp only [Except.ok.injEq] at h
        subst h
        exact List.Forall₂.cons hc (ih tail hm)

set_option maxRecDepth 100000 in
theorem mapCards_samples_homepage :
    ∃ cards, mapCards homepageOnly samples = .ok cards ∧ cards.length = 3 ∧
      joinCards cards ≠ "" ∧ joinCards cards ≠ loadingMarkup ∧ joinCards cards ≠ emptyMarkup :=
  ⟨_, rfl, rfl, by decide!, by decide!, by decide!⟩

set_option maxRecDepth 100000 in
theorem mapCards_samples_news :
    ∃ cards, mapCards [] samples = .ok cards ∧ cards.length = 3 ∧
      joinCards cards ≠ "" ∧ joinCards cards ≠ loadingMarkup ∧ joinCards cards ≠ emptyMarkup :=
  ⟨_, rfl, rfl, by decide!, by decide!, by decide!⟩

theorem mapCards_samples (doc : Document) :
    ∃ cards, mapCards doc samples = .ok cards ∧ cards.length = 3 ∧
      joinCards cards ≠ "" ∧ joinCards cards ≠ loadingMarkup ∧ joinCards cards ≠ emptyMarkup := by
  rcases layout_cases doc with h | h
  · rw [mapCards_congr doc homepageOnly samples h]
    exact mapCards_samples_homepage
  · rw [mapCards_congr doc [] samples h]
    exact mapCards_samples_news

/-- The settled page when the `try` block throws: the container holds the fallback. -/
theorem loadPressReleases_of_tryLoad_error (doc : Document) (fetch : String → FetchResult)
    (containerId : String) (limit : Option Int) (e : Element) (err : JSError)
    (hc : getElementById doc containerId = some e)
    (ht : tryLoad (setInnerHTML doc containerId loadingMarkup) fetch containerId limit
      = .error err) :
    ∃ done cards, loadPressReleases doc fetch containerId limit = .ok done ∧
      List.Forall₂ (fun pr card => createPRCard doc pr = .ok card) samples cards ∧
      cards.length = 3 ∧
      contents done containerId = some (joinCards cards) ∧
      joinCards cards ≠ "" ∧ joinCards cards ≠ loadingMarkup ∧
      joinCards cards ≠ emptyMarkup := by
  obtain ⟨cards, hm, hlen, h1, h2, h3⟩ := mapCards_samples doc
  have hiso := isSome_getElementById_setInnerHTML doc containerId loadingMarkup "homepage-prs"
  have hm2 : mapCards (setInnerHTML doc containerId loadingMarkup) samples = .ok cards := by
    rw [mapCards_congr _ doc samples hiso]; exact hm
  have hcl : ∃ e2, getElementById (setInnerHTML doc containerId loadingMarkup) containerId
      = some e2 := by
    rw [getElementById_setInnerHTML, hc]; exact ⟨_, rfl⟩
  obtain ⟨e2, he2⟩ := hcl
  refine ⟨setInnerHTML (setInnerHTML doc containerId loadingMarkup) containerId
    (joinCards cards), cards, ?_, mapCards_forall₂ doc samples cards hm, hlen, ?_, h1, h2, h3⟩
  · simp only [loadPressReleases, hc, ht, createSamplePRs, hm2]
  · exact contents_setInnerHTML _ _ _ e2 he2

/-! ## Records always render -/

theorem field_of_record (props : List (String × JSVal)) (key : String)
    (h : isStringOrAbsent (lookup key props) = true) :
    getProp (.obj props) key = .ok .undefined ∨
      ∃ s, getProp (.obj props) key = .ok (.str s) := by
  cases hl : lookup key props with
  | none => left; simp only [getProp, hl, Option.getD]
  | some v =>
    rw [hl] at h
    cases v with
    | str t => right; exact ⟨t, by simp only [getProp, hl, Option.getD]⟩
    | _ => simp [isStringOrAbsent] at h

theorem isRecord_fields (props : List (String × JSVal)) (h : isRecord (.obj props) = true)
    (key : String) (hk : key ∈ recordFields) :
    isStringOrAbsent (lookup key props) = true := by
  simp only [isRecord, List.all_eq_true] at h
  exact h key hk

theorem extractTitleFromFilename_ok (v : JSVal) (h : v = .undefined ∨ ∃ s, v = .str s) :
    ∃ t, extractTitleFromFilename v = .ok t := by
  rcases h with h | ⟨s, h⟩
  · subst h; exact ⟨_, rfl⟩
  · subst h
    by_cases hs : s = ""
    · subst hs; exact ⟨_, rfl⟩
    · refine ⟨titleFromString s, ?_⟩
      simp [extractTitleFromFilename, truthy, hs]

theorem stampText_ok (props : List (String × JSVal)) (h : isRecord (.obj props) = true) :
    ∃ t, stampText (.obj props) = .ok t := by
  unfold stampText
  rcases field_of_record props "timeAgo" (isRecord_fields props h _ (by decide)) with h1 | ⟨s, h1⟩
  · rw [h1]
    rcases field_of_record props "date" (isRecord_fields props h _ (by decide)) with h2 | ⟨s, h2⟩
    · rw [h2]; exact ⟨_, rfl⟩
    · rw [h2]; exact ⟨_, rfl⟩
  · rw [h1]
    by_cases hs : truthy (.str s) = true
    · simp only [hs, if_true]; exact ⟨_, rfl⟩
    · simp only [hs]
      rcases field_of_record props "date" (isRecord_fields props h _ (by decide)) with h2 | ⟨s, h2⟩
      · rw [h2]; exact ⟨_, rfl⟩
      · rw [h2]; exact ⟨_, rfl⟩

theorem titleText_ok (props : List (String × JSVal)) (h : isRecord (.obj props) = true) :
    ∃ t, titleText (.obj props) = .ok t := by
  unfold titleText
  have hf : ∃ t, (match getProp (.obj props) "filename" with
      | Except.error e => Except.error e
      | Except.ok filename => extractTitleFromFilename filename) = Except.ok t := by
    rcases field_of_record props "filename" (isRecord_fields props h _ (by decide))
      with h1 | ⟨s, h1⟩
    · rw [h1]; exact extractTitleFromFilename_ok _ (Or.inl rfl)
    · rw [h1]; exact extractTitleFromFilename_ok _ (Or.inr ⟨s, rfl⟩)
  rcases field_of_record props "title" (isRecord_fields props h _ (by decide)) with h1 | ⟨s, h1⟩
  · rw [h1]; exact hf
  · rw [h1]
    by_cases hs : truthy (.str s) = true
    · simp only [hs, if_true]; exact ⟨_, rfl⟩
    · simp only [hs]; exact hf

theorem summaryText_ok (props : List (String × JSVal)) (placeholder : String)
    (h : isRecord (.obj props) = true) :
    ∃ t, summaryText (.obj props) placeholder = .ok t := by
  unfold summaryText
  rcases field_of_record props "summary" (isRecord_fields props h _ (by decide)) with h1 | ⟨s, h1⟩
  · rw [h1]; exact ⟨_, rfl⟩
  · rw [h1]
    by_cases hs : truthy (.str s) = true
    · simp only [hs, if_true]; exact ⟨_, rfl⟩
    · simp only [hs]; exact ⟨_, rfl⟩

theorem companyText_ok (props : List (String × JSVal)) (h : isRecord (.obj props) = true) :
    ∃ t, companyText (.obj props) = .ok t := by
  unfold companyText
  rcases field_of_record props "company" (isRecord_fields props h _ (by decide)) with h1 | ⟨s, h1⟩
  · rw [h1]; exact ⟨_, rfl⟩
  · rw [h1]
    by_cases hs : truthy (.str s) = true
    · simp only [hs, if_true]; exact ⟨_, rfl⟩
    · simp only [hs]; exact ⟨_, rfl⟩

theorem verifiedViaText_ok (props : List (String × JSVal)) (h : isRecord (.obj props) = true) :
    ∃ t, verifiedViaText (.obj props) = .ok t := by
  unfold verifiedViaText
  have hc : ∃ t, (match getProp (.obj props) "company" with
      | Except.error e => Except.error e
      | Except.ok company =>
        if truthy company then toStr company else Except.ok "company domain")
      = Except.ok t := by
    rcases field_of_record props "company" (isRecord_fields props h _ (by decide)) with h1 | ⟨s, h1⟩
    · rw [h1]; exact ⟨_, rfl⟩
    · rw [h1]
      by_cases hs : truthy (.str s) = true
      · simp only [hs, if_true]; exact ⟨_, rfl⟩
      · simp only [hs]; exact ⟨_, rfl⟩
  rcases field_of_record props "domain" (isRecord_fields props h _ (by decide)) with h1 | ⟨s, h1⟩
  · rw [h1]; exact hc
  · rw [h1]
    by_cases hs : truthy (.str s) = true
    · simp only [hs, if_true]; exact ⟨_, rfl⟩
    · simp only [hs]; exact hc

theorem croText_ok (props : List (String × JSVal)) (h : isRecord (.obj props) = true) :
    ∃ t, croText (.obj props) = .ok t := by
  unfold croText
  rcases field_of_record props "croNumber" (isRecord_fields props h _ (by decide)) with h1 | ⟨s, h1⟩
  · rw [h1]; exact ⟨_, rfl⟩
  · rw [h1]
    by_cases hs : truthy (.str s) = true
    · simp only [hs, if_true]; exact ⟨_, rfl⟩
    · simp only [hs]; exact ⟨_, rfl⟩

theorem industryText_ok (props : List (String × JSVal)) (h : isRecord (.obj props) = true) :
    ∃ t, industryText (.obj props) = .ok t := by
  unfold industryText
  rcases field_of_record props "industry" (isRecord_fields props h _ (by decide)) with h1 | ⟨s, h1⟩
  · rw [h1]; exact ⟨_, rfl⟩
  · rw [h1]
    by_cases hs : truthy (.str s) = true
    · simp only [hs, if_true]; exact ⟨_, rfl⟩
    · simp only [hs]; exact ⟨_, rfl⟩

theorem domainText_ok (props : List (String × JSVal)) (h : isRecord (.obj props) = true) :
    ∃ t, domainText (.obj props) = .ok t := by
  unfold domainText
  rcases field_of_record props "domain" (isRecord_fields props h _ (by decide)) with h1 | ⟨s, h1⟩
  · rw [h1]; exact ⟨_, rfl⟩
  · rw [h1]
    by_cases hs : truthy (.str s) = true
    · simp only [hs, if_true]; exact ⟨_, rfl⟩
    · simp only [hs]; exact ⟨_, rfl⟩

theorem urlText_ok (props : List (String × JSVal)) (h : isRecord (.obj props) = true) :
    ∃ t, urlText (.obj props) = .ok t := by
  unfold urlText
  rcases field_of_record props "url" (isRecord_fields props h _ (by decide)) with h1 | ⟨s, h1⟩
  · rw [h1]; exact ⟨_, rfl⟩
  · rw [h1]; exact ⟨_, rfl⟩

/-- A record renders to a card in either layout, whatever fields it omits. -/
theorem createPRCard_ok_of_isRecord (doc : Document) (pr : JSVal) (h : isRecord pr = true) :
    ∃ card, createPRCard doc pr = .ok card := by
  cases pr with
  | obj props =>
    obtain ⟨t1, h1⟩ := stampText_ok props h
    obtain ⟨t2, h2⟩ := titleText_ok props h
    obtain ⟨t3, h3⟩ := summaryText_ok props
      "Click to read the full press release announcement." h
    obtain ⟨t4, h4⟩ := summaryText_ok props "Read the full press release for more details." h
    obtain ⟨t5, h5⟩ := verifiedViaText_ok props h
    obtain ⟨t6, h6⟩ := croText_ok props h
    obtain ⟨t7, h7⟩ := urlText_ok props h
    obtain ⟨t8, h8⟩ := industryText_ok props h
    obtain ⟨t9, h9⟩ := companyText_ok props h
    obtain ⟨t10, h10⟩ := domainText_ok props h
    unfold createPRCard
    simp only [h1, h2, h3, h4, h5, h6, h7, h8, h9, h10]
    split <;> exact ⟨_, rfl⟩
  | _ => simp [isRecord] at h

theorem mapCards_ok_of_records (doc : Document) (items : List JSVal)
    (h : ∀ pr ∈ items, isRecord pr = true) :
    ∃ cards, mapCards doc items = .ok cards := by
  induction items with
  | nil => exact ⟨[], rfl⟩
  | cons pr rest ih =>
    obtain ⟨card, hc⟩ := createPRCard_ok_of_isRecord doc pr (h pr (List.mem_cons_self _ _))
    obtain ⟨cards, hm⟩ := ih (fun q hq => h q (List.mem_cons_of_mem _ hq))
    exact ⟨card :: cards, by simp only [mapCards, hc, hm]⟩

/-! ## The fetch / render / fallback pipeline -/

/-- C1. Whenever the fetch fails (the request rejects, the status is not 2xx, or the
body is not JSON), for every limit and either layout, `loadPressReleases` on an existing
container settles without an exception and leaves in the container the three sample
cards, one per built-in sample in order, each made by `createPRCard`; this is neither
empty, nor the loading placeholder, nor the empty-state markup. -/
theorem load_failure_renders_fallback (doc : Document) (fetch : String → FetchResult)
    (containerId : String) (limit : Option Int) (e : Element)
    (hc : getElementById doc containerId = some e)
    (hfail : fetch (listUrl limit) = .rejected ∨
      (∃ status json, fetch (listUrl limit) = .response status json ∧ statusOk status = false) ∨
      (∃ status, fetch (listUrl limit) = .response status none)) :
    ∃ done cards, loadPressReleases doc fetch containerId limit = .ok done ∧
      List.Forall₂ (fun pr card => createPRCard doc pr = .ok card) samples cards ∧
      cards.length = 3 ∧
      contents done containerId = some (joinCards cards) ∧
      joinCards cards ≠ "" ∧ joinCards cards ≠ loadingMarkup ∧
      joinCards cards ≠ emptyMarkup := by
  have ht : ∃ err, tryLoad (setInnerHTML doc containerId loadingMarkup) fetch containerId limit
      = .error err := by
    rcases hfail with h | ⟨status, json, h, hs⟩ | ⟨status, h⟩
    · exact ⟨.networkError, by simp only [tryLoad, h]⟩
    · exact ⟨.error "Failed to fetch press releases", by simp [tryLoad, h, hs]⟩
    · by_cases hs : statusOk status = true
      · exact ⟨.syntaxError, by simp [tryLoad, h, hs]⟩
      · exact ⟨.error "Failed to fetch press releases", by simp [tryLoad, h, hs]⟩
  obtain ⟨err, ht⟩ := ht
  exact loadPressReleases_of_tryLoad_error doc fetch containerId limit e err hc ht

theorem load_failure_renders_fallback_witness :
    getElementById newsOnly "news-grid" = some { id := "news-grid", innerHTML := "" } ∧
    ∃ done cards, loadPressReleases newsOnly (fun _ => .response 500 none) "news-grid"
        (some 20) = .ok done ∧
      List.Forall₂ (fun pr card => createPRCard newsOnly pr = .ok card) samples cards ∧
      cards.length = 3 ∧
      contents done "news-grid" = some (joinCards cards) ∧
      joinCards cards ≠ "" ∧ joinCards cards ≠ loadingMarkup ∧
      joinCards cards ≠ emptyMarkup :=
  ⟨rfl, load_failure_renders_fallback newsOnly (fun _ => .response 500 none) "news-grid"
    (some 20) { id := "news-grid", innerHTML := "" } rfl
    (Or.inr (Or.inl ⟨500, none, rfl, rfl⟩))⟩

/-- The `try` block on a 2xx response whose `prs` is a non-empty array that renders. -/
theorem tryLoad_of_array (doc : Document) (fetch : String → FetchResult)
    (containerId : String) (limit : Option Int) (status : Nat)
    (props : List (String × JSVal)) (prs : List JSVal) (cards : List String)
    (hf : fetch (listUrl limit) = .response status (some (.obj props)))
    (hs : statusOk status = true)
    (hp : lookup "prs" props = some (.arr prs)) (hne : prs ≠ [])
    (hm : mapCards doc prs = .ok cards) :
    tryLoad doc fetch containerId limit = .ok (setInnerHTML doc containerId (joinCards cards)) := by
  have hlen : ((prs.length : Int) == 0) = false := by
    cases prs with
    | nil => exact absurd rfl hne
    | cons a l => simp; omega
  simp [tryLoad, hf, hs, getProp, hp, truthy, isZero, hlen, mapArray, hm]

/-- C2. For every 2xx response whose `prs` is a non-empty array of records, for every
limit and either layout, the container ends holding exactly one card per record, in the
order returned: the concatenation of `createPRCard` of each record. -/
theorem load_success_renders_all (doc : Document) (fetch : String → FetchResult)
    (containerId : String) (limit : Option Int) (e : Element) (status : Nat)
    (props : List (String × JSVal)) (prs : List JSVal)
    (hc : getElementById doc containerId = some e)
    (hf : fetch (listUrl limit) = .response status (some (.obj props)))
    (hs : statusOk status = true)
    (hp : lookup "prs" props = some (.arr prs)) (hne : prs ≠ [])
    (hrec : ∀ pr ∈ prs, isRecord pr = true) :
    ∃ done cards, loadPressReleases doc fetch containerId limit = .ok done ∧
      List.Forall₂ (fun pr card => createPRCard doc pr = .ok card) prs cards ∧
      cards.length = prs.length ∧
      contents done containerId = some (joinCards cards) := by
  obtain ⟨cards, hm⟩ := mapCards_ok_of_records doc prs hrec
  have hiso := isSome_getElementById_setInnerHTML doc containerId loadingMarkup "homepage-prs"
  have hm2 : mapCards (setInnerHTML doc containerId loadingMarkup) prs = .ok cards := by
    rw [mapCards_congr _ doc prs hiso]; exact hm
  have ht := tryLoad_of_array (setInnerHTML doc containerId loadingMarkup) fetch containerId
    limit status props prs cards hf hs hp hne hm2
  have hcl : ∃ e2, getElementById (setInnerHTML doc containerId loadingMarkup) containerId
      = some e2 := by
    rw [getElementById_setInnerHTML, hc]; exact ⟨_, rfl⟩
  obtain ⟨e2, he2⟩ := hcl
  have hall := mapCards_forall₂ doc prs cards hm
  refine ⟨setInnerHTML (setInnerHTML doc containerId loadingMarkup) containerId
    (joinCards cards), cards, ?_, hall, hall.length_eq.symm, ?_⟩
  · simp only [loadPressReleases, hc, ht]
  · exact contents_setInnerHTML _ _ _ e2 he2

theorem load_success_renders_all_witness :
    getElementById newsOnly "news-grid" = some { id := "news-grid", innerHTML := "" } ∧
    statusOk 200 = true ∧
    (∀ pr ∈ [JSVal.obj [("url", .str "/news/b.html"), ("title", .str "B")],
        JSVal.obj [("url", .str "/news/a.html"), ("title", .str "A")]], isRecord pr = true) ∧
    ∃ done cards,
      loadPressReleases newsOnly
        (fun _ => .response 200 (some (.obj [("prs", .arr
          [.obj [("url", .str "/news/b.html"), ("title", .str "B")],
           .obj [("url", .str "/news/a.html"), ("title", .str "A")]])])))
        "news-grid" (some 1) = .ok done ∧
      List.Forall₂ (fun pr card => createPRCard newsOnly pr = .ok card)
        [.obj [("url", .str "/news/b.html"), ("title", .str "B")],
         .obj [("url", .str "/news/a.html"), ("title", .str "A")]] cards ∧
      cards.length = 2 ∧
      contents done "news-grid" = some (joinCards cards) :=
  ⟨rfl, rfl, by decide,
    load_success_renders_all newsOnly _ "news-grid" (some 1)
      { id := "news-grid", innerHTML := "" } 200 _ _ rfl rfl rfl rfl (List.cons_ne_nil _ _)
      (by decide)⟩

/-! ## Substring test and the shape of a card -/

theorem listIncludes_iff_occurs (needle text : List Char) :
    listIncludes needle text = true ↔ needle <:+: text := by
  induction text with
  | nil => simp [listIncludes, List.isEmpty_iff]
  | cons c cs ih =>
    simp only [listIncludes, Bool.or_eq_true, ih, List.isPrefixOf_iff_prefix,
      List.infix_cons_iff]

theorem includes_iff_occurs (text needle : String) :
    includes text needle = true ↔ needle.data <:+: text.data :=
  listIncludes_iff_occurs needle.data text.data

theorem occurs_data_append_left (needle : List Char) (x y : String)
    (h : needle <:+: x.data) : needle <:+: (x ++ y).data := by
  rw [String.data_append]
  exact h.trans (List.prefix_append _ _).isInfix

theorem createPRCard_shape (doc : Document) (pr : JSVal) (card : String)
    (h : createPRCard doc pr = .ok card) :
    (∃ stamp title summary via cro url,
      card = compactCard stamp title summary via cro url) ∨
    (∃ industry stamp url title summary company domain,
      card = expandedCard industry stamp url title summary company domain) := by
  unfold createPRCard at h
  split at h
  · left
    repeat' (split at h)
    all_goals (cases h <;> exact ⟨_, _, _, _, _, _, rfl⟩)
  · right
    repeat' (split at h)
    all_goals (cases h <;> exact ⟨_, _, _, _, _, _, _, rfl⟩)

set_option maxRecDepth 100000 in
theorem badge_in_card (doc : Document) (pr : JSVal) (card : String)
    (h : createPRCard doc pr = .ok card) : "VERIFIED".data <:+: card.data := by
  rcases createPRCard_shape doc pr card h with ⟨a, b, c, d, e, f, rfl⟩ | ⟨a, b, c, d, e, f, g, rfl⟩
  · unfold compactCard
    iterate 12 apply occurs_data_append_left
    exact (listIncludes_iff_occurs _ _).mp (by decide!)
  · unfold expandedCard
    iterate 16 apply occurs_data_append_left
    exact (listIncludes_iff_occurs _ _).mp (by decide!)

/-! ## Empty and malformed lists -/

/-- The settled page when the `try` block completes with a markup in the container. -/
theorem loadPressReleases_of_tryLoad_ok (doc : Document) (fetch : String → FetchResult)
    (containerId : String) (limit : Option Int) (e : Element) (html : String)
    (hc : getElementById doc containerId = some e)
    (ht : tryLoad (setInnerHTML doc containerId loadingMarkup) fetch containerId limit
      = .ok (setInnerHTML (setInnerHTML doc containerId loadingMarkup) containerId html)) :
    ∃ done, loadPressReleases doc fetch containerId limit = .ok done ∧
      contents done containerId = some html := by
  have hcl : ∃ e2, getElementById (setInnerHTML doc containerId loadingMarkup) containerId
      = some e2 := by
    rw [getElementById_setInnerHTML, hc]; exact ⟨_, rfl⟩
  obtain ⟨e2, he2⟩ := hcl
  refine ⟨setInnerHTML (setInnerHTML doc containerId loadingMarkup) containerId html, ?_, ?_⟩
  · simp only [loadPressReleases, hc, ht]
  · exact contents_setInnerHTML _ _ _ e2 he2

/-- The `try` block on a 2xx response whose body is a JSON object. -/
theorem tryLoad_of_object (doc : Document) (fetch : String → FetchResult)
    (containerId : String) (limit : Option Int) (status : Nat)
    (props : List (String × JSVal))
    (hf : fetch (listUrl limit) = .response status (some (.obj props)))
    (hs : statusOk status = true) :
    tryLoad doc fetch containerId limit =
      match getProp (if truthy ((lookup "prs" props).getD .undefined)
          then (lookup "prs" props).getD .undefined else .arr []) "length" with
      | .error e => .error e
      | .ok length =>
        if isZero length then .ok (setInnerHTML doc containerId emptyMarkup)
        else
          match mapArray doc (if truthy ((lookup "prs" props).getD .undefined)
              then (lookup "prs" props).getD .undefined else .arr []) with
          | .error e => .error e
          | .ok cards => .ok (setInnerHTML doc containerId (joinCards cards)) := by
  simp only [tryLoad, hf, hs, getProp]
  rfl

theorem utf16Length_pos (s : String) (h : s ≠ "") : utf16Length s ≠ 0 := by
  obtain ⟨l⟩ := s
  cases l with
  | nil => exact absurd rfl h
  | cons c cs =>
    simp only [utf16Length, List.map_cons, List.sum_cons]
    split <;> omega

/-- The fallback markup is never the empty-state markup. -/
theorem createSamplePRs_ne_empty (doc : Document) : createSamplePRs doc ≠ .ok emptyMarkup := by
  obtain ⟨cards, hm, _, _, _, h3⟩ := mapCards_samples doc
  simp only [createSamplePRs, hm]
  intro h
  exact h3 (Except.ok.inj h)

/-- No card occurs in the empty-state markup. -/
theorem no_card_in_emptyMarkup (doc : Document) (pr : JSVal) (card : String)
    (h : createPRCard doc pr = .ok card) : includes emptyMarkup card = false := by
  cases hi : includes emptyMarkup card with
  | false => rfl
  | true =>
    have h1 := (includes_iff_occurs emptyMarkup card).mp hi
    have h2 := (badge_in_card doc pr card h).trans h1
    have h3 : listIncludes "VERIFIED".data emptyMarkup.data = true :=
      (listIncludes_iff_occurs _ _).mpr h2
    exact absurd h3 (by decide!)

/-- C3. For every 2xx response whose body is a JSON object with `prs` absent or the empty
array, the container ends holding the empty-state markup, which reads "No press releases
found.", contains no card and is not the fallback markup. -/
theorem load_empty_renders_empty_state (doc : Document) (fetch : String → FetchResult)
    (containerId : String) (limit : Option Int) (e : Element) (status : Nat)
    (props : List (String × JSVal))
    (hc : getElementById doc containerId = some e)
    (hf : fetch (listUrl limit) = .response status (some (.obj props)))
    (hs : statusOk status = true)
    (hp : lookup "prs" props = none ∨ lookup "prs" props = some (.arr [])) :
    ∃ done, loadPressReleases doc fetch containerId limit = .ok done ∧
      contents done containerId = some emptyMarkup ∧
      includes emptyMarkup "No press releases found." = true ∧
      (∀ page pr card, createPRCard page pr = .ok card → includes emptyMarkup card = false) ∧
      (∀ page, createSamplePRs page ≠ .ok emptyMarkup) := by
  have ht : tryLoad (setInnerHTML doc containerId loadingMarkup) fetch containerId limit
      = .ok (setInnerHTML (setInnerHTML doc containerId loadingMarkup) containerId
          emptyMarkup) := by
    rw [tryLoad_of_object _ fetch containerId limit status props hf hs]
    rcases hp with hp | hp <;> simp [hp, truthy, getProp, isZero]
  obtain ⟨done, h1, h2⟩ := loadPressReleases_of_tryLoad_ok doc fetch containerId limit e
    emptyMarkup hc ht
  exact ⟨done, h1, h2, by decide!, no_card_in_emptyMarkup, createSamplePRs_ne_empty⟩

theorem load_empty_renders_empty_state_witness :
    getElementById homepageOnly "homepage-prs" = some { id := "homepage-prs", innerHTML := "" } ∧
    statusOk 200 = true ∧
    ∃ done, loadPressReleases homepageOnly (fun _ => .response 200 (some (.obj [("prs", .arr [])])))
        "homepage-prs" (some 3) = .ok done ∧
      contents done "homepage-prs" = some emptyMarkup ∧
      includes emptyMarkup "No press releases found." = true ∧
      (∀ page pr card, createPRCard page pr = .ok card → includes emptyMarkup card = false) ∧
      (∀ page, createSamplePRs page ≠ .ok emptyMarkup) :=
  ⟨rfl, rfl, load_empty_renders_empty_state homepageOnly _ "homepage-prs" (some 3)
    { id := "homepage-prs", innerHTML := "" } 200 [("prs", .arr [])] rfl rfl rfl
    (Or.inr rfl)⟩

/-- The `try` block on a 2xx response whose `prs` is present and not an array. -/
theorem tryLoad_of_non_array (doc : Document) (fetch : String → FetchResult)
    (containerId : String) (limit : Option Int) (status : Nat)
    (props : List (String × JSVal)) (v : JSVal)
    (hf : fetch (listUrl limit) = .response status (some (.obj props)))
    (hs : statusOk status = true)
    (hp : lookup "prs" props = some v) (hv : ∀ items, v ≠ .arr items) :
    ((truthy v = false ∨ ∃ ps, v = .obj ps ∧ lookup "length" ps = some (.num 0)) →
      tryLoad doc fetch containerId limit = .ok (setInnerHTML doc containerId emptyMarkup)) ∧
    (¬ (truthy v = false ∨ ∃ ps, v = .obj ps ∧ lookup "length" ps = some (.num 0)) →
      tryLoad doc fetch containerId limit = .error .typeError) := by
  rw [tryLoad_of_object doc fetch containerId limit status props hf hs, hp]
  simp only [Option.getD]
  cases v with
  | undefined => simp [truthy, getProp, isZero]
  | null => simp [truthy, getProp, isZero]
  | bool b => cases b <;> simp [truthy, getProp, isZero, mapArray]
  | num n =>
    by_cases hn : n = 0
    · subst hn; simp [truthy, getProp, isZero]
    · simp [truthy, getProp, isZero, mapArray, hn]
  | str s =>
    by_cases hn : s = ""
    · subst hn; simp [truthy, getProp, isZero]
    · have := utf16Length_pos s hn
      simp [truthy, getProp, isZero, mapArray, hn]
      omega
  | arr items => exact absurd rfl (hv items)
  | obj ps =>
    cases hl : lookup "length" ps with
    | none => simp [truthy, getProp, isZero, mapArray, hl]
    | some w =>
      cases w <;> simp [truthy, getProp, isZero, mapArray, hl]

/-- C9 as stated fails: a 2xx response whose `prs` is `true` leaves the news container
holding the fallback samples, not the empty-state markup. -/
theorem non_array_list_not_empty_state :
    ∃ done cards,
      loadPressReleases newsOnly (fun _ => .response 200 (some (.obj [("prs", .bool true)])))
        "news-grid" (some 20) = .ok done ∧
      List.Forall₂ (fun pr card => createPRCard newsOnly pr = .ok card) samples cards ∧
      contents done "news-grid" = some (joinCards cards) ∧
      contents done "news-grid" ≠ some emptyMarkup := by
  have ht := (tryLoad_of_non_array (setInnerHTML newsOnly "news-grid" loadingMarkup)
    (fun _ => .response 200 (some (.obj [("prs", .bool true)]))) "news-grid" (some 20)
    200 [("prs", .bool true)] (.bool true) rfl rfl rfl (fun items h => by cases h)).2 (by
      rintro (h | ⟨ps, h, _⟩)
      · cases h
      · cases h)
  obtain ⟨done, cards, hd, hall, _, hcont, _, _, hne⟩ :=
    loadPressReleases_of_tryLoad_error newsOnly _ "news-grid" (some 20)
      { id := "news-grid", innerHTML := "" } _ rfl ht
  refine ⟨done, cards, hd, hall, hcont, ?_⟩
  rw [hcont]
  intro h
  exact hne (Option.some.inj h)

/-- C9, amended. For every 2xx response whose `prs` is present and not an array: when
`prs` is falsy (`null`, `false`, `0`, `""`) or is an object whose `length` is the number
0, the container ends holding the empty-state markup; in every other case (any other
object, a non-empty string, a non-zero number, `true`) the rendering throws, the failure
is caught and the container ends holding the fallback samples. -/
theorem load_non_array_list (doc : Document) (fetch : String → FetchResult)
    (containerId : String) (limit : Option Int) (e : Element) (status : Nat)
    (props : List (String × JSVal)) (v : JSVal)
    (hc : getElementById doc containerId = some e)
    (hf : fetch (listUrl limit) = .response status (some (.obj props)))
    (hs : statusOk status = true)
    (hp : lookup "prs" props = some v) (hv : ∀ items, v ≠ .arr items) :
    ∃ done, loadPressReleases doc fetch containerId limit = .ok done ∧
      ((truthy v = false ∨ ∃ ps, v = .obj ps ∧ lookup "length" ps = some (.num 0)) →
        contents done containerId = some emptyMarkup) ∧
      (¬ (truthy v = false ∨ ∃ ps, v = .obj ps ∧ lookup "length" ps = some (.num 0)) →
        ∃ cards, List.Forall₂ (fun pr card => createPRCard doc pr = .ok card) samples cards ∧
          contents done containerId = some (joinCards cards) ∧
          joinCards cards ≠ emptyMarkup) := by
  obtain ⟨h1, h2⟩ := tryLoad_of_non_array (setInnerHTML doc containerId loadingMarkup) fetch
    containerId limit status props v hf hs hp hv
  by_cases hcase : truthy v = false ∨ ∃ ps, v = .obj ps ∧ lookup "length" ps = some (.num 0)
  · obtain ⟨done, hd, hcont⟩ := loadPressReleases_of_tryLoad_ok doc fetch containerId limit e
      emptyMarkup hc (h1 hcase)
    exact ⟨done, hd, fun _ => hcont, fun hn => absurd hcase hn⟩
  · obtain ⟨done, cards, hd, hall, _, hcont, _, _, hne⟩ :=
      loadPressReleases_of_tryLoad_error doc fetch containerId limit e _ hc (h2 hcase)
    exact ⟨done, hd, fun hy => absurd hy hcase, fun _ => ⟨cards, hall, hcont, hne⟩⟩

theorem load_non_array_list_witness :
    getElementById newsOnly "news-grid" = some { id := "news-grid", innerHTML := "" } ∧
    statusOk 200 = true ∧
    ∃ done,
      loadPressReleases newsOnly (fun _ => .response 200 (some (.obj [("prs", .str "none")])))
        "news-grid" (some 20) = .ok done ∧
      ((truthy (.str "none") = false ∨
          ∃ ps, JSVal.str "none" = .obj ps ∧ lookup "length" ps = some (.num 0)) →
        contents done "news-grid" = some emptyMarkup) ∧
      (¬ (truthy (.str "none") = false ∨
          ∃ ps, JSVal.str "none" = .obj ps ∧ lookup "length" ps = some (.num 0)) →
        ∃ cards,
          List.Forall₂ (fun pr card => createPRCard newsOnly pr = .ok card) samples cards ∧
          contents done "news-grid" = some (joinCards cards) ∧
          joinCards cards ≠ emptyMarkup) :=
  ⟨rfl, rfl, load_non_array_list newsOnly _ "news-grid" (some 20)
    { id := "news-grid", innerHTML := "" } 200 [("prs", .str "none")] (.str "none")
    rfl rfl rfl rfl (fun items h => by cases h)⟩

/-! ## Search and filters -/

theorem forall₂_map_self {α β : Type} (f : α → β) (P : α → β → Prop) (h : ∀ a, P a (f a))
    (l : List α) : List.Forall₂ P l (l.map f) := by
  induction l with
  | nil => exact List.Forall₂.nil
  | cons a rest ih => exact List.Forall₂.cons (h a) ih

theorem display_of_texts (f : String → String) (articles others : List Article)
    (h : others.map Article.textContent = articles.map Article.textContent) :
    others.map (fun a => ({ a with display := f a.textContent } : Article)) =
      articles.map (fun a => ({ a with display := f a.textContent } : Article)) := by
  induction others generalizing articles with
  | nil =>
    cases articles with
    | nil => rfl
    | cons a l => simp at h
  | cons b l ih =>
    cases articles with
    | nil => simp at h
    | cons a l2 =>
      simp only [List.map_cons, List.cons.injEq] at h
      simp only [List.map_cons, List.cons.injEq]
      exact ⟨by rw [h.1], ih l2 h.2⟩

/-- The display the search listener gives an item, by whether the lower-cased query
occurs in the lower-cased text. -/
theorem searchListener_item (toLowerCase : String → String) (value : String) (a : Article) :
    ((toLowerCase value).data <:+: (toLowerCase a.textContent).data →
      (if includes (toLowerCase a.textContent) (toLowerCase value) then "block" else "none")
        = "block") ∧
    (¬ (toLowerCase value).data <:+: (toLowerCase a.textContent).data →
      (if includes (toLowerCase a.textContent) (toLowerCase value) then "block" else "none")
        = "none") := by
  constructor
  · intro h
    rw [if_pos ((includes_iff_occurs _ _).mpr h)]
  · intro h
    rw [if_neg (fun hc => h ((includes_iff_occurs _ _).mp hc))]

/-- C5. After the search listener has run, whatever the prior visibility, every item
keeps its text and is shown (`display` is `block`) if the lower-cased query occurs as a
substring in its lower-cased text, and hidden (`display` is `none`) otherwise, the
lower-casing being that of the runtime. The result depends on the texts and the query
only, the empty query shows every item, searching twice is searching once, and on the
texts "Acme raises funds" and "Beta wins grant" the queries "acme" and "FUNDS" show the
first item only, the query "grant" the second only, the query "solar" none and the
cleared query both. -/
theorem search_shows_matching_items (toLowerCase : String → String)
    (hlower : LowerOnAscii toLowerCase) (value : String) (articles : List Article) :
    List.Forall₂ (fun (before after : Article) =>
        after.textContent = before.textContent ∧
        ((toLowerCase value).data <:+: (toLowerCase before.textContent).data →
          after.display = "block" ∧ after.shown = true) ∧
        (¬ (toLowerCase value).data <:+: (toLowerCase before.textContent).data →
          after.display = "none" ∧ after.shown = false))
      articles (searchListener toLowerCase value articles) ∧
    (∀ others : List Article,
        others.map Article.textContent = articles.map Article.textContent →
        searchListener toLowerCase value others = searchListener toLowerCase value articles) ∧
    (searchListener toLowerCase "" articles).map Article.display
        = articles.map (fun _ => "block") ∧
    searchListener toLowerCase value (searchListener toLowerCase value articles)
        = searchListener toLowerCase value articles ∧
    (∀ d1 d2 : String,
        (searchListener toLowerCase "acme" [{ textContent := "Acme raises funds", display := d1 },
          { textContent := "Beta wins grant", display := d2 }]).map Article.display
          = ["block", "none"]) ∧
    (∀ d1 d2 : String,
        (searchListener toLowerCase "FUNDS" [{ textContent := "Acme raises funds", display := d1 },
          { textContent := "Beta wins grant", display := d2 }]).map Article.display
          = ["block", "none"]) ∧
    (∀ d1 d2 : String,
        (searchListener toLowerCase "grant" [{ textContent := "Acme raises funds", display := d1 },
          { textContent := "Beta wins grant", display := d2 }]).map Article.display
          = ["none", "block"]) ∧
    (∀ d1 d2 : String,
        (searchListener toLowerCase "solar" [{ textContent := "Acme raises funds", display := d1 },
          { textContent := "Beta wins grant", display := d2 }]).map Article.display
          = ["none", "none"]) ∧
    (∀ d1 d2 : String,
        (searchListener toLowerCase "" [{ textContent := "Acme raises funds", display := d1 },
          { textContent := "Beta wins grant", display := d2 }]).map Article.display
          = ["block", "block"]) ∧
    (toLowerCase "CAFÉ Dublin opens" = "café dublin opens" → toLowerCase "café" = "café" →
      ∀ d1 d2 : String,
        (searchListener toLowerCase "café" [{ textContent := "CAFÉ Dublin opens", display := d1 },
          { textContent := "Beta wins grant", display := d2 }]).map Article.display
          = ["block", "none"]) := by
  have t1 : toLowerCase "Acme raises funds" = "acme raises funds" :=
    (hlower _ (by decide)).trans (by decide)
  have t2 : toLowerCase "Beta wins grant" = "beta wins grant" :=
    (hlower _ (by decide)).trans (by decide)
  have q0 : toLowerCase "" = "" := (hlower _ (by decide)).trans (by decide)
  have q1 : toLowerCase "acme" = "acme" := (hlower _ (by decide)).trans (by decide)
  have q2 : toLowerCase "FUNDS" = "funds" := (hlower _ (by decide)).trans (by decide)
  have q3 : toLowerCase "grant" = "grant" := (hlower _ (by decide)).trans (by decide)
  have q4 : toLowerCase "solar" = "solar" := (hlower _ (by decide)).trans (by decide)
  refine ⟨?_, ?_, ?_, ?_, ?_, ?_, ?_, ?_, ?_, ?_⟩
  · unfold searchListener
    apply forall₂_map_self
    intro a
    obtain ⟨h1, h2⟩ := searchListener_item toLowerCase value a
    refine ⟨rfl, fun h => ?_, fun h => ?_⟩
    · have := h1 h
      exact ⟨this, by simp only [Article.shown, this]; decide⟩
    · have := h2 h
      exact ⟨this, by simp only [Article.shown, this]; decide⟩
  · intro others h
    exact display_of_texts
      (fun text => if includes (toLowerCase text) (toLowerCase value) then "block" else "none")
      articles others h
  · simp only [searchListener, List.map_map, q0]
    apply List.map_congr_left
    intro a _
    have : includes (toLowerCase a.textContent) "" = true :=
      (includes_iff_occurs _ _).mpr List.nil_infix
    simp only [Function.comp, this, if_true]
  · simp only [searchListener, List.map_map]
    apply List.map_congr_left
    intro a _
    rfl
  · intro d1 d2
    simp only [searchListener, List.map_cons, List.map_nil, t1, t2, q1]
    decide
  · intro d1 d2
    simp only [searchListener, List.map_cons, List.map_nil, t1, t2, q2]
    decide
  · intro d1 d2
    simp only [searchListener, List.map_cons, List.map_nil, t1, t2, q3]
    decide
  · intro d1 d2
    simp only [searchListener, List.map_cons, List.map_nil, t1, t2, q4]
    decide
  · intro d1 d2
    simp only [searchListener, List.map_cons, List.map_nil, t1, t2, q0]
    decide
  · intro c1 c2 d1 d2
    simp only [searchListener, List.map_cons, List.map_nil, t2, c1, c2]
    decide

theorem lowerOnAscii_asciiLower : LowerOnAscii asciiLower := fun _ _ => rfl

theorem search_shows_matching_items_witness :
    LowerOnAscii asciiLower ∧
    List.Forall₂ (fun (before after : Article) =>
        after.textContent = before.textContent ∧
        ((asciiLower "Acme").data <:+: (asciiLower before.textContent).data →
          after.display = "block" ∧ after.shown = true) ∧
        (¬ (asciiLower "Acme").data <:+: (asciiLower before.textContent).data →
          after.display = "none" ∧ after.shown = false))
      [{ textContent := "ACME raises funds", display := "none" },
        { textContent := "Beta wins grant", display := "block" }]
      (searchListener asciiLower "Acme"
        [{ textContent := "ACME raises funds", display := "none" },
          { textContent := "Beta wins grant", display := "block" }]) ∧
    (searchListener asciiLower "Acme"
        [{ textContent := "ACME raises funds", display := "none" },
          { textContent := "Beta wins grant", display := "block" }]).map Article.display
      = ["block", "none"] :=
  ⟨lowerOnAscii_asciiLower,
    (search_shows_matching_items asciiLower lowerOnAscii_asciiLower "Acme"
      [{ textContent := "ACME raises funds", display := "none" },
        { textContent := "Beta wins grant", display := "block" }]).1,
    by decide⟩

/-- The verdict of `filterPRs` on one item, by whether each non-empty selector value
occurs, lower-cased, in the lower-cased text. -/
theorem filterPRs_item (toLowerCase : String → String) (industry type : String)
    (a : Article) :
    (((industry = "" ∨ (toLowerCase industry).data <:+: (toLowerCase a.textContent).data) ∧
      (type = "" ∨ (toLowerCase type).data <:+: (toLowerCase a.textContent).data)) →
      (if (if type != "" && !includes (toLowerCase a.textContent) (toLowerCase type)
          then false
          else if industry != "" &&
              !includes (toLowerCase a.textContent) (toLowerCase industry)
            then false else true) then "block" else "none") = "block") ∧
    (¬ ((industry = "" ∨ (toLowerCase industry).data <:+: (toLowerCase a.textContent).data) ∧
      (type = "" ∨ (toLowerCase type).data <:+: (toLowerCase a.textContent).data)) →
      (if (if type != "" && !includes (toLowerCase a.textContent) (toLowerCase type)
          then false
          else if industry != "" &&
              !includes (toLowerCase a.textContent) (toLowerCase industry)
            then false else true) then "block" else "none") = "none") := by
  rw [← includes_iff_occurs, ← includes_iff_occurs]
  by_cases h1 : industry = "" <;> by_cases h2 : type = "" <;>
    cases includes (toLowerCase a.textContent) (toLowerCase industry) <;>
    cases includes (toLowerCase a.textContent) (toLowerCase type) <;>
    simp [h1, h2]

theorem selectorValue_eq_getD (selector : Option String) :
    selectorValue selector = selector.getD "" := by
  cases selector with
  | none => rfl
  | some v =>
    by_cases hv : v = ""
    · subst hv; rfl
    · simp [selectorValue, hv]

/-- C6. After `filterPRs` has run, whatever the prior visibility, every item keeps its
text and is shown (`display` is `block`) if each selector whose value is non-empty has
its lower-cased value occurring as a substring in the item's lower-cased text, and hidden
(`display` is `none`) otherwise, the lower-casing being that of the runtime; an empty or
absent selector constrains nothing and the two axes combine by conjunction. The result
depends on the texts and the two values only. With the industry "finance" and the type ""
or absent, exactly the items whose lower-cased text contains "finance" are shown; on the
texts "FinTech closes FINANCE round", "Green energy grant" and "Finance technology
merger" that is the first and the third, with the type "Technology" added the third
only, and with no selector value all three. -/
theorem filter_shows_matching_items (toLowerCase : String → String)
    (hlower : LowerOnAscii toLowerCase) (industryFilter typeFilter : Option String)
    (articles : List Article) :
    List.Forall₂ (fun (before after : Article) =>
        after.textContent = before.textContent ∧
        (((industryFilter.getD "" = "" ∨
            (toLowerCase (industryFilter.getD "")).data <:+:
              (toLowerCase before.textContent).data) ∧
          (typeFilter.getD "" = "" ∨
            (toLowerCase (typeFilter.getD "")).data <:+:
              (toLowerCase before.textContent).data)) →
          after.display = "block" ∧ after.shown = true) ∧
        (¬ ((industryFilter.getD "" = "" ∨
            (toLowerCase (industryFilter.getD "")).data <:+:
              (toLowerCase before.textContent).data) ∧
          (typeFilter.getD "" = "" ∨
            (toLowerCase (typeFilter.getD "")).data <:+:
              (toLowerCase before.textContent).data)) →
          after.display = "none" ∧ after.shown = false))
      articles (filterPRs toLowerCase industryFilter typeFilter articles) ∧
    (∀ others : List Article,
        others.map Article.textContent = articles.map Article.textContent →
        filterPRs toLowerCase industryFilter typeFilter others
          = filterPRs toLowerCase industryFilter typeFilter articles) ∧
    (∀ typeValue : Option String, typeValue = some "" ∨ typeValue = none →
      List.Forall₂ (fun (before after : Article) =>
          ("finance".data <:+: (toLowerCase before.textContent).data →
            after.display = "block") ∧
          (¬ "finance".data <:+: (toLowerCase before.textContent).data →
            after.display = "none"))
        articles (filterPRs toLowerCase (some "finance") typeValue articles)) ∧
    (∀ d1 d2 d3 : String,
        (filterPRs toLowerCase (some "finance") (some "")
          [{ textContent := "FinTech closes FINANCE round", display := d1 },
           { textContent := "Green energy grant", display := d2 },
           { textContent := "Finance technology merger", display := d3 }]).map Article.display
          = ["block", "none", "block"]) ∧
    (∀ d1 d2 d3 : String,
        (filterPRs toLowerCase (some "finance") (some "Technology")
          [{ textContent := "FinTech closes FINANCE round", display := d1 },
           { textContent := "Green energy grant", display := d2 },
           { textContent := "Finance technology merger", display := d3 }]).map Article.display
          = ["none", "none", "block"]) ∧
    (∀ d1 d2 d3 : String,
        (filterPRs toLowerCase none (some "energy")
          [{ textContent := "FinTech closes FINANCE round", display := d1 },
           { textContent := "Green energy grant", display := d2 },
           { textContent := "Finance technology merger", display := d3 }]).map Article.display
          = ["none", "block", "none"]) ∧
    (∀ d1 d2 d3 : String,
        (filterPRs toLowerCase (some "") none
          [{ textContent := "FinTech closes FINANCE round", display := d1 },
           { textContent := "Green energy grant", display := d2 },
           { textContent := "Finance technology merger", display := d3 }]).map Article.display
          = ["block", "block", "block"]) := by
  have t1 : toLowerCase "FinTech closes FINANCE round" = "fintech closes finance round" :=
    (hlower _ (by decide)).trans (by decide)
  have t2 : toLowerCase "Green energy grant" = "green energy grant" :=
    (hlower _ (by decide)).trans (by decide)
  have t3 : toLowerCase "Finance technology merger" = "finance technology merger" :=
    (hlower _ (by decide)).trans (by decide)
  have q0 : toLowerCase "" = "" := (hlower _ (by decide)).trans (by decide)
  have q1 : toLowerCase "finance" = "finance" := (hlower _ (by decide)).trans (by decide)
  have q2 : toLowerCase "Technology" = "technology" := (hlower _ (by decide)).trans (by decide)
  have q3 : toLowerCase "energy" = "energy" := (hlower _ (by decide)).trans (by decide)
  have hmain : ∀ (i t : Option String) (l : List Article),
      List.Forall₂ (fun (before after : Article) =>
        after.textContent = before.textContent ∧
        (((i.getD "" = "" ∨
            (toLowerCase (i.getD "")).data <:+: (toLowerCase before.textContent).data) ∧
          (t.getD "" = "" ∨
            (toLowerCase (t.getD "")).data <:+: (toLowerCase before.textContent).data)) →
          after.display = "block" ∧ after.shown = true) ∧
        (¬ ((i.getD "" = "" ∨
            (toLowerCase (i.getD "")).data <:+: (toLowerCase before.textContent).data) ∧
          (t.getD "" = "" ∨
            (toLowerCase (t.getD "")).data <:+: (toLowerCase before.textContent).data)) →
          after.display = "none" ∧ after.shown = false))
      l (filterPRs toLowerCase i t l) := by
    intro i t l
    unfold filterPRs
    rw [selectorValue_eq_getD, selectorValue_eq_getD]
    apply forall₂_map_self
    intro a
    obtain ⟨h1, h2⟩ := filterPRs_item toLowerCase (i.getD "") (t.getD "") a
    refine ⟨rfl, fun h => ?_, fun h => ?_⟩
    · have := h1 h
      exact ⟨this, by simp only [Article.shown, this]; decide⟩
    · have := h2 h
      exact ⟨this, by simp only [Article.shown, this]; decide⟩
  refine ⟨hmain _ _ _, ?_, ?_, ?_, ?_, ?_, ?_⟩
  · intro others h
    exact display_of_texts
      (fun text =>
        if (if selectorValue typeFilter != "" &&
              !includes (toLowerCase text) (toLowerCase (selectorValue typeFilter))
            then false
            else if selectorValue industryFilter != "" &&
                !includes (toLowerCase text) (toLowerCase (selectorValue industryFilter))
              then false else true) then "block" else "none")
      articles others h
  · intro typeValue ht
    have hm := hmain (some "finance") typeValue articles
    have hty : typeValue.getD "" = "" := by
      rcases ht with ht | ht <;> (subst ht; rfl)
    refine hm.imp ?_
    intro before after ⟨_, h1, h2⟩
    simp only [Option.getD_some, hty, q1, true_or, and_true] at h1 h2
    have hfin : ¬ ("finance" = "") := by decide
    simp only [hfin, false_or] at h1 h2
    exact ⟨fun h => (h1 h).1, fun h => (h2 h).1⟩
  · intro d1 d2 d3
    simp only [filterPRs, selectorValue_eq_getD, Option.getD_some, Option.getD_none,
      List.map_cons, List.map_nil, t1, t2, t3, q0, q1]
    decide
  · intro d1 d2 d3
    simp only [filterPRs, selectorValue_eq_getD, Option.getD_some, Option.getD_none,
      List.map_cons, List.map_nil, t1, t2, t3, q1, q2]
    decide
  · intro d1 d2 d3
    simp only [filterPRs, selectorValue_eq_getD, Option.getD_some, Option.getD_none,
      List.map_cons, List.map_nil, t1, t2, t3, q0, q3]
    decide
  · intro d1 d2 d3
    simp only [filterPRs, selectorValue_eq_getD, Option.getD_some, Option.getD_none,
      List.map_cons, List.map_nil, t1, t2, t3, q0]
    decide

theorem filter_shows_matching_items_witness :
    LowerOnAscii asciiLower ∧
    (filterPRs asciiLower (some "Finance") (some "technology")
        [{ textContent := "FinTech closes FINANCE round", display := "" },
         { textContent := "Green energy grant", display := "block" },
         { textContent := "Finance technology merger", display := "none" }]).map Article.display
      = ["none", "none", "block"] ∧
    List.Forall₂ (fun (before after : Article) =>
        after.textContent = before.textContent ∧
        ((((some "Finance" : Option String).getD "" = "" ∨
            (asciiLower ((some "Finance" : Option String).getD "")).data <:+:
              (asciiLower before.textContent).data) ∧
          ((some "technology" : Option String).getD "" = "" ∨
            (asciiLower ((some "technology" : Option String).getD "")).data <:+:
              (asciiLower before.textContent).data)) →
          after.display = "block" ∧ after.shown = true) ∧
        (¬ (((some "Finance" : Option String).getD "" = "" ∨
            (asciiLower ((some "Finance" : Option String).getD "")).data <:+:
              (asciiLower before.textContent).data) ∧
          ((some "technology" : Option String).getD "" = "" ∨
            (asciiLower ((some "technology" : Option String).getD "")).data <:+:
              (asciiLower before.textContent).data)) →
          after.display = "none" ∧ after.shown = false))
      [{ textContent := "FinTech closes FINANCE round", display := "" },
       { textContent := "Green energy grant", display := "block" },
       { textContent := "Finance technology merger", display := "none" }]
      (filterPRs asciiLower (some "Finance") (some "technology")
        [{ textContent := "FinTech closes FINANCE round", display := "" },
         { textContent := "Green energy grant", display := "block" },
         { textContent := "Finance technology merger", display := "none" }]) :=
  ⟨lowerOnAscii_asciiLower, by decide,
    (filter_shows_matching_items asciiLower lowerOnAscii_asciiLower (some "Finance")
      (some "technology")
      [{ textContent := "FinTech closes FINANCE round", display := "" },
       { textContent := "Green energy grant", display := "block" },
       { textContent := "Finance technology merger", display := "none" }]).1⟩

/-! ## What a card shows -/

/-- C7. In the compact layout two records that differ only in `industry` give the same
markup, and in the expanded layout two records that differ only in `croNumber` give the
same markup. -/
theorem layout_gates_optional_fields (doc : Document) (p1 p2 : List (String × JSVal)) :
    (isHomepage doc = true →
      (∀ key, key ≠ "industry" → lookup key p1 = lookup key p2) →
      createPRCard doc (.obj p1) = createPRCard doc (.obj p2)) ∧
    (isHomepage doc = false →
      (∀ key, key ≠ "croNumber" → lookup key p1 = lookup key p2) →
      createPRCard doc (.obj p1) = createPRCard doc (.obj p2)) := by
  constructor
  · intro hl h
    have hl2 : (getElementById doc "homepage-prs").isSome = true := hl
    have e1 := h "timeAgo" (by decide)
    have e2 := h "date" (by decide)
    have e3 := h "title" (by decide)
    have e4 := h "filename" (by decide)
    have e5 := h "summary" (by decide)
    have e6 := h "domain" (by decide)
    have e7 := h "company" (by decide)
    have e8 := h "croNumber" (by decide)
    have e9 := h "url" (by decide)
    simp only [createPRCard, hl2, if_true, stampText, titleText, summaryText, verifiedViaText,
      croText, urlText, getProp, e1, e2, e3, e4, e5, e6, e7, e8, e9]
  · intro hl h
    have hl2 : (getElementById doc "homepage-prs").isSome = false := hl
    have e1 := h "timeAgo" (by decide)
    have e2 := h "date" (by decide)
    have e3 := h "title" (by decide)
    have e4 := h "filename" (by decide)
    have e5 := h "summary" (by decide)
    have e6 := h "domain" (by decide)
    have e7 := h "company" (by decide)
    have e8 := h "industry" (by decide)
    have e9 := h "url" (by decide)
    simp only [createPRCard, hl2, Bool.false_eq_true, if_false, stampText, titleText,
      summaryText, companyText, domainText, industryText, urlText, getProp,
      e1, e2, e3, e4, e5, e6, e7, e8, e9]

theorem lookup_two_fields (key other : String) (u v w : JSVal) (h : key ≠ other) :
    lookup key [("url", u), (other, v)] = lookup key [("url", u), (other, w)] := by
  have hne : (other == key) = false := by
    simp only [beq_eq_false_iff_ne, ne_eq]
    exact fun h2 => h h2.symm
  simp only [lookup, hne, Bool.false_eq_true, if_false]

theorem layout_gates_optional_fields_witness :
    (isHomepage homepageOnly = true ∧
      (∀ key, key ≠ "industry" →
        lookup key [("url", .str "/news/a.html"), ("industry", .str "finance")] =
        lookup key [("url", .str "/news/a.html"), ("industry", .str "technology")]) ∧
      createPRCard homepageOnly
          (.obj [("url", .str "/news/a.html"), ("industry", .str "finance")]) =
        createPRCard homepageOnly
          (.obj [("url", .str "/news/a.html"), ("industry", .str "technology")])) ∧
    (isHomepage newsOnly = false ∧
      (∀ key, key ≠ "croNumber" →
        lookup key [("url", .str "/news/a.html"), ("croNumber", .str "123456")] =
        lookup key [("url", .str "/news/a.html"), ("croNumber", .str "654321")]) ∧
      createPRCard newsOnly
          (.obj [("url", .str "/news/a.html"), ("croNumber", .str "123456")]) =
        createPRCard newsOnly
          (.obj [("url", .str "/news/a.html"), ("croNumber", .str "654321")])) :=
  ⟨⟨rfl, fun key h => lookup_two_fields key "industry" _ _ _ h,
      (layout_gates_optional_fields homepageOnly _ _).1 rfl
        (fun key h => lookup_two_fields key "industry" _ _ _ h)⟩,
    ⟨rfl, fun key h => lookup_two_fields key "croNumber" _ _ _ h,
      (layout_gates_optional_fields newsOnly _ _).2 rfl
        (fun key h => lookup_two_fields key "croNumber" _ _ _ h)⟩⟩

/-- The record that supplies `url` and nothing else. -/
theorem createPRCard_url_only (doc : Document) :
    createPRCard doc (.obj [("url", .str "/news/launch.html")]) =
      .ok (if isHomepage doc then
          compactCard "undefined" "Press Release"
            "Click to read the full press release announcement." "company domain" ""
            "/news/launch.html"
        else
          expandedCard "" "undefined" "/news/launch.html" "Press Release"
            "Read the full press release for more details." "Verified Company" "") := by
  cases h : isHomepage doc with
  | true =>
    have h2 : (getElementById doc "homepage-prs").isSome = true := h
    simp only [createPRCard, h2, if_true]
    rfl
  | false =>
    have h2 : (getElementById doc "homepage-prs").isSome = false := h
    simp only [createPRCard, h2, Bool.false_eq_true, if_false]
    rfl

set_option maxRecDepth 100000 in
/-- C8 fails on the code: a record that supplies only `url` renders, in either layout,
with the text `undefined` in the timestamp position, since `pr.timeAgo || pr.date` has
no default. -/
theorem missing_timestamp_renders_undefined (doc : Document) :
    isRecord (.obj [("url", .str "/news/launch.html")]) = true ∧
    includes "/news/launch.html" "undefined" = false ∧
    createPRCard doc (.obj [("url", .str "/news/launch.html")]) =
      .ok (if isHomepage doc then
          compactCard "undefined" "Press Release"
            "Click to read the full press release announcement." "company domain" ""
            "/news/launch.html"
        else
          expandedCard "" "undefined" "/news/launch.html" "Press Release"
            "Read the full press release for more details." "Verified Company" "") ∧
    includes (compactCard "undefined" "Press Release"
        "Click to read the full press release announcement." "company domain" ""
        "/news/launch.html") "undefined" = true ∧
    includes (expandedCard "" "undefined" "/news/launch.html" "Press Release"
        "Read the full press release for more details." "Verified Company" "")
      "undefined" = true :=
  ⟨by decide, by decide, createPRCard_url_only doc, by decide!, by decide!⟩

/-- C4 fails on the code: the separator in front of the timestamp is left behind, so
the derived title ends with a space. -/
theorem extractTitle_keeps_trailing_space :
    extractTitleFromFilename (.str "my-company-launch-1700000000000.html")
      = .ok "My Company Launch " ∧
    extractTitleFromFilename (.str "my-company-launch-1700000000000.html")
      ≠ .ok "My Company Launch" :=
  ⟨by decide, by decide⟩

theorem titleText_placeholder (props : List (String × JSVal))
    (ht : lookup "title" props = none) (hf : lookup "filename" props = none) :
    titleText (.obj props) = .ok "Press Release" := by
  simp [titleText, getProp, ht, hf, truthy, extractTitleFromFilename]

/-- C10. `extractTitleFromFilename` returns the literal "Press Release" for `undefined`,
`null` and the empty string; hence a record with neither a title nor a filename renders,
in either layout, to a card whose title hole holds "Press Release". -/
theorem missing_title_shows_placeholder (doc : Document) (props : List (String × JSVal))
    (hrec : isRecord (.obj props) = true)
    (ht : lookup "title" props = none) (hf : lookup "filename" props = none) :
    extractTitleFromFilename .undefined = .ok "Press Release" ∧
    extractTitleFromFilename .null = .ok "Press Release" ∧
    extractTitleFromFilename (.str "") = .ok "Press Release" ∧
    ∃ industry stamp url summary company domain via cro,
      createPRCard doc (.obj props) =
        .ok (if isHomepage doc then compactCard stamp "Press Release" summary via cro url
          else expandedCard industry stamp url "Press Release" summary company domain) := by
  refine ⟨rfl, rfl, rfl, ?_⟩
  obtain ⟨t1, h1⟩ := stampText_ok props hrec
  have h2 := titleText_placeholder props ht hf
  obtain ⟨t3, h3⟩ := summaryText_ok props
    "Click to read the full press release announcement." hrec
  obtain ⟨t4, h4⟩ := summaryText_ok props "Read the full press release for more details." hrec
  obtain ⟨t5, h5⟩ := verifiedViaText_ok props hrec
  obtain ⟨t6, h6⟩ := croText_ok props hrec
  obtain ⟨t7, h7⟩ := urlText_ok props hrec
  obtain ⟨t8, h8⟩ := industryText_ok props hrec
  obtain ⟨t9, h9⟩ := companyText_ok props hrec
  obtain ⟨t10, h10⟩ := domainText_ok props hrec
  cases h : isHomepage doc with
  | true =>
    have hl : (getElementById doc "homepage-prs").isSome = true := h
    exact ⟨"", t1, t7, t3, "", "", t5, t6, by
      simp only [createPRCard, hl, if_true, h1, h2, h3, h5, h6, h7]⟩
  | false =>
    have hl : (getElementById doc "homepage-prs").isSome = false := h
    exact ⟨t8, t1, t7, t4, t9, t10, "", "", by
      simp only [createPRCard, hl, Bool.false_eq_true, if_false, h1, h2, h4, h7, h8, h9, h10]⟩

theorem missing_title_shows_placeholder_witness :
    isRecord (.obj [("url", .str "/news/a.html"), ("summary", .str "New office.")]) = true ∧
    lookup "title" [("url", .str "/news/a.html"), ("summary", .str "New office.")] = none ∧
    lookup "filename" [("url", .str "/news/a.html"), ("summary", .str "New office.")] = none ∧
    extractTitleFromFilename .undefined = .ok "Press Release" ∧
    extractTitleFromFilename .null = .ok "Press Release" ∧
    extractTitleFromFilename (.str "") = .ok "Press Release" ∧
    ∃ industry stamp url summary company domain via cro,
      createPRCard newsOnly
          (.obj [("url", .str "/news/a.html"), ("summary", .str "New office.")]) =
        .ok (if isHomepage newsOnly then compactCard stamp "Press Release" summary via cro url
          else expandedCard industry stamp url "Press Release" summary company domain) :=
  ⟨by decide, rfl, rfl,
    missing_title_shows_placeholder newsOnly
      [("url", .str "/news/a.html"), ("summary", .str "New office.")] (by decide) rfl rfl⟩

/-! ## Title derivation on timestamped filenames -/

theorem stripTimestampHtml_append (body digits : List Char) (hlen : digits.length = 13)
    (hd : digits.all Char.isDigit = true) :
    stripTimestampHtml (body ++ digits ++ ".html".data) = body := by
  have h5 : ".html".data.length = 5 := rfl
  have hl : (body ++ digits ++ ".html".data).length = body.length + 18 := by
    simp only [List.length_append, hlen, h5]
  have h1 : (body ++ digits ++ ".html".data).length - 18 = body.length := by omega
  have h2 : (body ++ digits ++ ".html".data).length - 5 = (body ++ digits).length := by
    simp only [List.length_append, hlen, h5]; omega
  unfold stripTimestampHtml
  rw [h1, h2]
  have e1 : List.drop body.length (body ++ digits ++ ".html".data) = digits ++ ".html".data := by
    rw [List.append_assoc]; exact List.drop_left _ _
  have e2 : List.take 13 (digits ++ ".html".data) = digits := by
    rw [← hlen]; exact List.take_left _ _
  have e3 : List.drop (body ++ digits).length (body ++ digits ++ ".html".data) = ".html".data :=
    List.drop_left _ _
  have e4 : List.take body.length (body ++ digits ++ ".html".data) = body := by
    rw [List.append_assoc]; exact List.take_left _ _
  rw [e1, e2, e3, e4, if_pos]
  exact ⟨by omega, hd, rfl⟩

theorem slug_concat (pieces : List (List Char × Char)) (h : pieces ≠ []) :
    ∃ front sep, slug pieces = front ++ [sep] ∧ sep = (pieces.getLast h).2 := by
  obtain ⟨init, last, rfl⟩ := (List.eq_nil_or_concat pieces).resolve_left h
  refine ⟨slug init ++ last.1, last.2, ?_, ?_⟩
  · simp [slug, List.concat_eq_append]
  · simp [List.concat_eq_append]

theorem stripHtml_of_separator (front : List Char) (sep : Char) (h : sep = '-' ∨ sep = '_') :
    stripHtml (front ++ [sep]) = front ++ [sep] := by
  unfold stripHtml
  rw [if_neg]
  intro hs
  rw [List.isSuffixOf_iff_suffix] at hs
  obtain ⟨t, ht⟩ := hs
  have h1 : (t ++ ".html".data).getLast? = some 'l' := by
    have : t ++ ".html".data = (t ++ ['.', 'h', 't', 'm']) ++ ['l'] := by simp
    rw [this, List.getLast?_concat]
  rw [ht, List.getLast?_concat] at h1
  rcases h with h | h <;> (subst h; revert h1; decide)

theorem separatorsToSpaces_slug (pieces : List (List Char × Char))
    (h : ∀ p ∈ pieces, (p.2 = '-' ∨ p.2 = '_') ∧ ∀ c ∈ p.1, c ≠ '-' ∧ c ≠ '_' ∧ c ≠ ' ') :
    separatorsToSpaces (slug pieces) = [' '].intercalate (pieces.map (fun p => p.1) ++ [[]]) := by
  induction pieces with
  | nil => rfl
  | cons p rest ih =>
    have hp := h p (List.mem_cons_self _ _)
    have ih2 := ih (fun q hq => h q (List.mem_cons_of_mem _ hq))
    have hw : separatorsToSpaces p.1 = p.1 := by
      unfold separatorsToSpaces
      conv_rhs => rw [← List.map_id p.1]
      apply List.map_congr_left
      intro c hc
      have := hp.2 c hc
      simp [this.1, this.2.1]
    have hsep : separatorsToSpaces [p.2] = [' '] := by
      rcases hp.1 with h1 | h1 <;> simp [separatorsToSpaces, h1]
    have hs : slug (p :: rest) = p.1 ++ [p.2] ++ slug rest := by simp [slug]
    have happ : ∀ a b, separatorsToSpaces (a ++ b) = separatorsToSpaces a ++ separatorsToSpaces b := by
      intro a b; simp [separatorsToSpaces]
    rw [hs, happ, happ, hw, hsep, ih2]
    cases hr : (List.map (fun p => p.1) rest ++ [[]]) with
    | nil => simp at hr
    | cons x xs =>
      simp [List.intercalate, hr, List.intersperse]

theorem intercalate_append_nil (sep : List Char) (ls : List (List Char)) (h : ls ≠ []) :
    sep.intercalate (ls ++ [[]]) = sep.intercalate ls ++ sep := by
  induction ls with
  | nil => exact absurd rfl h
  | cons a rest ih =>
    cases rest with
    | nil => simp [List.intercalate, List.intersperse]
    | cons b rest2 =>
      have := ih (List.cons_ne_nil _ _)
      simp only [List.intercalate, List.cons_append, List.intersperse, List.flatten_cons,
        List.append_assoc] at this ⊢
      exact congrArg (fun t => a ++ (sep ++ t)) this

/-- For a filename made of words, each followed by a hyphen or an underscore, then 13
digits and `.html`, the derived title is the capitalized words joined by single spaces
and followed by one more space: the separator in front of the timestamp survives. -/
theorem extractTitle_timestamped (pieces : List (List Char × Char)) (digits : List Char)
    (hne : pieces ≠ [])
    (h : ∀ p ∈ pieces, (p.2 = '-' ∨ p.2 = '_') ∧ ∀ c ∈ p.1, c ≠ '-' ∧ c ≠ '_' ∧ c ≠ ' ')
    (hlen : digits.length = 13) (hd : digits.all Char.isDigit = true) :
    extractTitleFromFilename (.str (String.mk (slug pieces ++ digits ++ ".html".data))) =
      .ok (String.mk
        (" ".data.intercalate (pieces.map (fun p => capitalize p.1)) ++ " ".data)) := by
  have htruthy : truthy (.str (String.mk (slug pieces ++ digits ++ ".html".data))) = true := by
    simp only [truthy, bne_iff_ne, ne_eq]
    intro hc
    have := congrArg String.length hc
    simp [String.length] at this
  obtain ⟨front, sep, hfront, hsep⟩ := slug_concat pieces hne
  have hsep2 : sep = '-' ∨ sep = '_' := by
    rw [hsep]; exact (h _ (List.getLast_mem hne)).1
  have hstrip : stripHtml (slug pieces) = slug pieces := by
    rw [hfront]; exact stripHtml_of_separator front sep hsep2
  have hwords : ∀ l ∈ pieces.map (fun p => p.1) ++ [[]], ' ' ∉ l := by
    intro l hl
    rcases List.mem_append.mp hl with hl | hl
    · obtain ⟨p, hp, rfl⟩ := List.mem_map.mp hl
      intro hc
      exact ((h p hp).2 _ hc).2.2 rfl
    · simp only [List.mem_singleton] at hl
      subst hl
      exact List.not_mem_nil _
  have hmap : pieces.map (fun p => p.1) ≠ [] := by
    intro hc; exact hne (List.map_eq_nil_iff.mp hc)
  have hmap2 : (pieces.map (fun p => p.1)).map capitalize ≠ [] := by
    intro hc; exact hmap (List.map_eq_nil_iff.mp hc)
  simp only [extractTitleFromFilename, htruthy, Bool.not_true, Bool.false_eq_true, if_false,
    titleFromString]
  rw [stripTimestampHtml_append _ _ hlen hd, hstrip, separatorsToSpaces_slug pieces h,
    List.splitOn_intercalate _ ' ' hwords (by simp), List.map_append]
  have : List.map capitalize [[]] = [[]] := rfl
  rw [this, intercalate_append_nil _ _ hmap2, List.map_map]
  rfl

/-- A record without `timeAgo` and `date` has the text `undefined` as its timestamp. -/
theorem stampText_undefined (props : List (String × JSVal))
    (h1 : lookup "timeAgo" props = none) (h2 : lookup "date" props = none) :
    stampText (.obj props) = .ok "undefined" := by
  simp [stampText, getProp, h1, h2, truthy, toStr]

end PressWire
